import Mathlib

/-!
Verification of the fast-web-search core against its specification.

The definitions below are a shallow embedding of the Python sources in
src/fastwebsearch (models.py, proxies.py, scraper.py, core.py).  Mutable
objects become explicit state values, `datetime` instants become integers
(the scraper, whose claims compare times) or rationals (statistics and the
rate gate, where division occurs), dict objects become association lists
with Python-dict insertion semantics, awaited network calls become oracle
parameters, and code paths that raise become `Except`-style error values.
-/

namespace FastWebSearch

/-! ### Python dict model

Python `dict` assignment `d[k] = v` keeps the position of an existing key
and overwrites its value, otherwise appends the new pair.  `dict(zip(ks,
vs))` folds such assignments over the pair list.  This models the
`proxy_stats` dict (proxies.py), the content cache (scraper.py) and the
result mapping of `multi_search` (core.py). -/

def dictLookup {κ α : Type} [BEq κ] (k : κ) (d : List (κ × α)) : Option α :=
  (d.find? (fun p => p.1 == k)).map (fun p => p.2)

def pyDictInsert {κ α : Type} [BEq κ] (d : List (κ × α)) (kv : κ × α) : List (κ × α) :=
  if d.any (fun p => p.1 == kv.1) then
    d.map (fun p => if p.1 == kv.1 then (p.1, kv.2) else p)
  else d ++ [kv]

def pyDict {κ α : Type} [BEq κ] (ps : List (κ × α)) : List (κ × α) :=
  ps.foldl pyDictInsert []

/-! ### Data model (src/fastwebsearch/models.py)

The dataclass `Proxy` carries the identity fields (host, port, protocol),
optional credentials, and the mutable fields `last_used` and
`success_rate`.  Instants are rationals here. -/

structure Proxy where
  host : String
  port : ℕ
  protocol : String
  username : Option String := none
  password : Option String := none
  last_used : Option ℚ := none
  success_rate : ℚ := 0
deriving DecidableEq

/-- Equality of two `Proxy` values as generated by `@dataclass` in
models.py: Python compares the tuple of ALL seven fields, including the
mutable `last_used` and `success_rate`.  (The dataclass is not frozen, so
Python additionally sets `__hash__ = None`, which no shallow value-level
embedding can express; see the C1 analysis.) -/
def proxy_dataclass_eq (p q : Proxy) : Bool :=
  p.host == q.host && p.port == q.port && p.protocol == q.protocol &&
    p.username == q.username && p.password == q.password &&
    p.last_used == q.last_used && p.success_rate == q.success_rate

/-- Equality by the identity triple (host, port, protocol) that the spec
declares for `Proxy`. -/
def proxy_identity_eq (p q : Proxy) : Bool :=
  p.host == q.host && p.port == q.port && p.protocol == q.protocol

/-- Per-proxy statistics record, the value type of the `proxy_stats` dict
built in `ProxyManager.__init__` (proxies.py). -/
structure ProxyStats where
  success_count : ℕ
  fail_count : ℕ
  avg_response_time : ℚ
  last_used : Option ℚ := none
  last_verified : Option ℚ := none
deriving DecidableEq

/-- Fresh statistics record as written by `ProxyManager.__init__`. -/
def initial_stats : ProxyStats :=
  { success_count := 0, fail_count := 0, avg_response_time := 0 }

/-- State of a ProxyManager: the `working_proxies` list and the
`proxy_stats` dict (modelled as an association list keyed by the full
`Proxy` value, as Python keys the dict by the proxy object). -/
structure ProxyManagerState where
  working_proxies : List Proxy
  proxy_stats : List (Proxy × ProxyStats)
deriving DecidableEq

/-- Embedding of `ProxyManager.__init__` (proxies.py lines 17-29):
`working_proxies` starts as a copy of the registered list and every proxy
gets a fresh stats record.  (In the Python source this constructor in fact
raises `TypeError` because the non-frozen dataclass `Proxy` is unhashable;
claim C1 records that finding.  The remaining proxy claims are settled
against the per-method logic with the dict modelled structurally.) -/
def proxy_manager_init (proxies : List Proxy) : ProxyManagerState :=
  { working_proxies := proxies,
    proxy_stats := proxies.map (fun p => (p, initial_stats)) }

/-- Increment of the `fail_count` field of a stats record, the
read-modify-write `stats["fail_count"] += 1`. -/
def bump_fail (t : ProxyStats) : ProxyStats :=
  { t with fail_count := t.fail_count + 1 }

/-- Increment of the `success_count` field of a stats record, the
read-modify-write `stats["success_count"] += 1`. -/
def bump_success (t : ProxyStats) : ProxyStats :=
  { t with success_count := t.success_count + 1 }

/-- Embedding of `ProxyManager.mark_proxy_failed` (proxies.py lines
116-128): increment `fail_count`, recompute
`success_count / (success_count + fail_count)`, and when the rate is below
0.5 remove the proxy from `working_proxies` with Python `list.remove`
semantics (first occurrence removed; `ValueError` when absent).  An
unregistered proxy raises `KeyError` at the dict subscript. -/
def mark_proxy_failed (st : ProxyManagerState) (p : Proxy) :
    Except String ProxyManagerState :=
  match dictLookup p st.proxy_stats with
  | none => .error "KeyError"
  | some s =>
    let stats1 := st.proxy_stats.map
      (fun kv => if kv.1 == p then (kv.1, bump_fail kv.2) else kv)
    let success_rate : ℚ :=
      (s.success_count : ℚ) / ((s.success_count : ℚ) + ((s.fail_count : ℚ) + 1))
    if success_rate < 1/2 then
      if p ∈ st.working_proxies then
        .ok { working_proxies := st.working_proxies.erase p, proxy_stats := stats1 }
      else .error "ValueError"
    else .ok { st with proxy_stats := stats1 }

/-- Embedding of `ProxyManager.mark_proxy_success` (proxies.py lines
130-138): increments `success_count` only; `working_proxies` is untouched,
so no eviction is ever undone by it. -/
def mark_proxy_success (st : ProxyManagerState) (p : Proxy) :
    Except String ProxyManagerState :=
  match dictLookup p st.proxy_stats with
  | none => .error "KeyError"
  | some _ =>
    let stats1 := st.proxy_stats.map
      (fun kv => if kv.1 == p then (kv.1, bump_success kv.2) else kv)
    .ok { st with proxy_stats := stats1 }

/-! ### verify_proxy (src/fastwebsearch/proxies.py lines 31-71)

The probe through aiohttp is summarised by its observable outcome: a
response with an HTTP status and a measured response time, or a raised
exception (connection error or timeout).  The `try` block catches every
exception, so the embedding is a total function: all probe errors collapse
to `false`. -/

inductive ProbeOutcome where
  | resp (status : ℕ) (response_time : ℚ)
  | exc (msg : String)
deriving DecidableEq

/-- Embedding of `verify_proxy`: on a 200 response it increments
`success_count`, folds the sample into the running mean
`avg' = (avg * (n - 1) + sample) / n` with `n` the new success count,
stamps `last_verified`, and returns true.  On an exception it increments
`fail_count` and returns false.  On a non-200 response it falls through
the `async with` blocks to the final `return False` with NO stats
update. -/
def verify_proxy (o : ProbeOutcome) (now : ℚ) (s : ProxyStats) :
    Bool × ProxyStats :=
  match o with
  | .resp status rt =>
    if status = 200 then
      let n : ℕ := s.success_count + 1
      (true,
        { s with
            success_count := n,
            avg_response_time := (s.avg_response_time * ((n : ℚ) - 1) + rt) / (n : ℚ),
            last_verified := some now })
    else (false, s)
  | .exc _ => (false, { s with fail_count := s.fail_count + 1 })

/-! ### get_proxy (src/fastwebsearch/proxies.py lines 73-114) -/

/-- Lexicographic order on a pair of rationals, the order Python uses to
compare the two-component sort keys. -/
def lexLe (a b : ℚ × ℚ) : Bool :=
  decide (a.1 < b.1) || (decide (a.1 = b.1) && decide (a.2 ≤ b.2))

/-- Sort key of a proxy in `get_proxy`:
`(success_count / (success_count + fail_count + 1), -avg_response_time)`.
The stats dict is passed as a total function on proxies (every working
proxy is registered by `__init__`). -/
def score (stats : Proxy → ProxyStats) (p : Proxy) : ℚ × ℚ :=
  (((stats p).success_count : ℚ) /
      (((stats p).success_count : ℚ) + ((stats p).fail_count : ℚ) + 1),
    -(stats p).avg_response_time)

/-- Comparison used by `sorted(..., key=..., reverse=True)`: `p` may sit
before `q` when the score of `q` is lexicographically at most the score of
`p`. -/
def scoreDesc (stats : Proxy → ProxyStats) (p q : Proxy) : Prop :=
  lexLe (score stats q) (score stats p) = true

instance (stats : Proxy → ProxyStats) : DecidableRel (scoreDesc stats) :=
  fun _ _ => instDecidableEqBool _ _

/-- The `for proxy in sorted_proxies[:3]` loop: probe candidates in order,
stopping at the first that verifies.  Returns the verified proxy (if any)
together with the list of candidates actually probed, in probe order. -/
def probeFirst (verify : Proxy → Bool) : List Proxy → Option Proxy × List Proxy
  | [] => (none, [])
  | p :: rest =>
    if verify p then (some p, [p])
    else
      let r := probeFirst verify rest
      (r.1, p :: r.2)

/-- Embedding of `get_proxy`.  The outcome of one verification attempt is
supplied by the oracle `verify` (the claims quantify over it).  Returns
(selected proxy, verification probes issued in order, new working list).
An empty working set returns none immediately; otherwise the working set
is sorted descending by `score` (Python `sorted` with `reverse=True` is a
stable descending sort, modelled by `List.insertionSort` on `scoreDesc`),
the top 3 are probed in order, and if none verifies, the whole working
list is re-verified in its stored order (`asyncio.gather` over
`self.working_proxies`) and filtered down to the verified ones, the head
of the filtered list being returned. -/
def get_proxy (verify : Proxy → Bool) (stats : Proxy → ProxyStats)
    (working : List Proxy) : Option Proxy × List Proxy × List Proxy :=
  if working = [] then (none, [], working)
  else
    let sorted := List.insertionSort (scoreDesc stats) working
    let probed := probeFirst verify (sorted.take 3)
    match probed.1 with
    | some p => (some p, probed.2, working)
    | none =>
      let working2 := working.filter verify
      (working2.head?, probed.2 ++ working, working2)

/-! ### fetch (src/fastwebsearch/scraper.py lines 35-55) -/

/-- Immutable result value of the fetch pipeline (models.py lines 34-42).
The `content` field has NO default in the dataclass. -/
structure ScrapeResult where
  url : String
  content : String
  error : Option String := none
  timestamp : ℚ := 0
deriving DecidableEq

/-- Outcome of a Python expression that either produces a value or raises
`TypeError` at a constructor call.  `ScrapeResult(url=url, error=...)`
omits the required `content` argument, so both error returns in `fetch`
raise instead of returning. -/
inductive PyResult (α : Type) where
  | ok (a : α)
  | typeError (msg : String)
deriving DecidableEq

/-- Retry loop of `fetch`: `transport i` is the outcome of the HTTP GET on
attempt `i` (`some text` on success).  Returns the outcome together with
the list of backoff sleeps performed, in order.  The loop sleeps `backoff`
after EVERY failed attempt (including the last) and doubles it; when all
`max_retries` attempts fail the source executes
`return ScrapeResult(url=url, error="Failed after retries")`, which raises
`TypeError` because `content` is required. -/
def fetch_loop (transport : ℕ → Option String) (url : String) :
    ℕ → ℕ → ℕ → PyResult ScrapeResult × List ℕ
  | 0, _, _ =>
    (.typeError "ScrapeResult missing required argument content", [])
  | n + 1, attempt, backoff =>
    match transport attempt with
    | some text => (.ok { url := url, content := text }, [])
    | none =>
      let r := fetch_loop transport url n (attempt + 1) (backoff * 2)
      (r.1, backoff :: r.2)

/-- Embedding of `fetch`: robots check first (when disallowed the source
executes `return ScrapeResult(url=url, error="Disallowed by robots.txt")`,
again a `TypeError` since `content` is omitted), then the retry loop with
the backoff starting at 1. -/
def fetch (allowed : Bool) (transport : ℕ → Option String) (url : String)
    (max_retries : ℕ) : PyResult ScrapeResult × List ℕ :=
  if !allowed then
    (.typeError "ScrapeResult missing required argument content", [])
  else fetch_loop transport url max_retries 0 1

/-! ### Rate gate (src/fastwebsearch/core.py lines 26-35)

`FastWebSearch._rate_limit` reads `self.last_request_time`, sleeps when
the elapsed time is below `1/rate_limit`, then writes
`self.last_request_time = datetime.now()` and the caller proceeds
(admission).  The read/decision and the post-sleep write are separated by
the `await asyncio.sleep` suspension point, so the two phases are
modelled separately; a call that needs no sleep runs both phases
atomically (no suspension point on that path). -/

structure RateState where
  last_request_time : ℚ
deriving DecidableEq

/-- Phase 1 of `_rate_limit` for a call arriving at time `now`: when the
time since the last recorded request is below `1/rate`, the task suspends
and is due to wake at `now + (1/rate - elapsed)` (returned as `some
wake`); otherwise no sleep is needed (`none`). -/
def rate_limit_check (rate : ℚ) (s : RateState) (now : ℚ) : Option ℚ :=
  if now - s.last_request_time < 1 / rate then
    some (now + (1 / rate - (now - s.last_request_time)))
  else none

/-- Phase 2 (also the tail of the no-sleep path): at current time `t` the
task writes `last_request_time := t` and is admitted at `t`. -/
def rate_limit_commit (t : ℚ) : RateState × ℚ :=
  ({ last_request_time := t }, t)

/-- One full serialized `_rate_limit` call (no other task interleaves
between the check and the commit): the admission happens at the wake time
when a sleep was needed, else immediately. -/
def rate_limit_serial (rate : ℚ) (s : RateState) (now : ℚ) : RateState × ℚ :=
  match rate_limit_check rate s now with
  | some wake => rate_limit_commit wake
  | none => rate_limit_commit now

/-! ### Search orchestration (src/fastwebsearch/core.py lines 37-89) -/

/-- Search result value (models.py lines 10-19); `timestamp` as a rational
instant, `metadata` an optional string map. -/
structure SearchResult where
  title : String
  url : String
  snippet : String
  timestamp : ℚ
  source : String
  metadata : Option (List (String × String)) := none
deriving DecidableEq

/-- Embedding of `FastWebSearch.search` minus the gate (the gate is the
separate rate-gate model above): the pluggable provider either returns
results or raises; the `except Exception` arm converts any provider error
into an empty result list. -/
def search (provider : String → Except String (List SearchResult))
    (query : String) : List SearchResult :=
  match provider query with
  | .ok results => results
  | .error _ => []

/-- Embedding of `FastWebSearch.multi_search`: one task per query, in list
order; `asyncio.gather` returns the result list positionally (index `i`
holds the result of the task created for `queries[i]`, whatever the
completion order), and `dict(zip(queries, results))` folds the pairs with
Python-dict assignment.  Each call is its own provider invocation, so the
provider takes the task index as well; `finish_order` is the order in
which the concurrent calls complete — `gather` keys its output by task,
so the result cannot depend on it, and the embedding accordingly ignores
it. -/
def multi_search (provider : ℕ → String → Except String (List SearchResult))
    (finish_order : List ℕ) (queries : List String) :
    List (String × List SearchResult) :=
  pyDict (queries.enum.map (fun iq => (iq.2, search (provider iq.1) iq.2)))

/-! ### WebScraper.get_page_content (src/fastwebsearch/scraper.py lines 95-141) -/

/-- State of a `WebScraper`: the content cache url -> (content,
stored-at) and the TTL.  Instants are integers here (Python datetimes are
integer microsecond counts). -/
structure WebScraperState where
  cache : List (String × String × ℤ)
  cache_ttl : ℤ
deriving DecidableEq

/-- Observable outcome of the single HTTP GET inside `get_page_content`:
a response with a status and body, or a raised exception. -/
inductive FetchOutcome where
  | resp (status : ℕ) (html : String)
  | exc (msg : String)
deriving DecidableEq

/-- The non-cache branch of `get_page_content`: on a 200 response the body
is parsed (`BeautifulSoup(...).get_text()`, the external extractor
parameter `getText`), the cache is written at the current instant and the
content returned; any other status raises an HTTP-status error; an exception
raises `Failed to fetch ...`.  The third component records whether the
transport was invoked (always true on this branch). -/
def fetch_branch (getText : String → String) (outcome : FetchOutcome)
    (st : WebScraperState) (now : ℤ) (url : String) :
    Except String String × WebScraperState × Bool :=
  match outcome with
  | .resp status html =>
    if status = 200 then
      let content := getText html
      (.ok content,
        { st with cache := pyDictInsert st.cache (url, content, now) }, true)
    else (.error ("HTTP " ++ toString status), st, true)
  | .exc msg => (.error ("Failed to fetch " ++ url ++ ": " ++ msg), st, true)

/-- Embedding of `get_page_content`: with caching enabled, a cache entry
for the URL is consulted and, when `now - stored_at < cache_ttl`, its
content is returned without touching the transport; otherwise (no entry,
expired entry, or caching disabled) the fetch branch runs. -/
def get_page_content (getText : String → String) (outcome : FetchOutcome)
    (st : WebScraperState) (now : ℤ) (url : String) (use_cache : Bool) :
    Except String String × WebScraperState × Bool :=
  match (if use_cache then dictLookup url st.cache else none) with
  | some entry =>
    if now - entry.2 < st.cache_ttl then (.ok entry.1, st, false)
    else fetch_branch getText outcome st now url
  | none => fetch_branch getText outcome st now url

/-- Transport outcomes on which the single GET inside `get_page_content`
raises: any non-200 status or an exception. -/
def fetch_fails (o : FetchOutcome) : Bool :=
  match o with
  | .resp status _ => status != 200
  | .exc _ => true

/-! ### Concrete instances used by counterexamples and witnesses -/

def c4_proxy : Proxy := { host := "10.0.0.2", port := 3128, protocol := "http" }

def c4_state : ProxyManagerState := proxy_manager_init [c4_proxy]

def c4w_proxy : Proxy := { host := "10.0.0.3", port := 3129, protocol := "socks5" }

def c4w_stats : ProxyStats :=
  { success_count := 1, fail_count := 0, avg_response_time := 0 }

def c4w_state : ProxyManagerState :=
  { working_proxies := [c4w_proxy], proxy_stats := [(c4w_proxy, c4w_stats)] }

def c5_result_a : SearchResult :=
  { title := "r0", url := "u0", snippet := "s", timestamp := 0, source := "brave" }

def c5_result_b : SearchResult :=
  { title := "r1", url := "u1", snippet := "s", timestamp := 0, source := "brave" }

/-- Provider for the C5 counterexample: the two concurrent calls for the
duplicate query return different result lists (call 0 returns r0, call 1
returns r1). -/
def c5_provider : ℕ → String → Except String (List SearchResult) :=
  fun i _ => if i = 0 then .ok [c5_result_a] else .ok [c5_result_b]

def c6_result : SearchResult :=
  { title := "rb", url := "ub", snippet := "s", timestamp := 0, source := "brave" }

/-- Provider for the C6 witness: the search for "a" raises, the search for
any other query succeeds. -/
def c6_provider_fail : ℕ → String → Except String (List SearchResult) :=
  fun _ q => if q = "a" then .error "boom" else .ok [c6_result]

/-- Comparison provider for the C6 witness: identical to
`c6_provider_fail` away from "a", but succeeding on "a" as well. -/
def c6_provider_ok : ℕ → String → Except String (List SearchResult) :=
  fun _ _ => .ok [c6_result]

def c9_state : WebScraperState := { cache := [], cache_ttl := 10 }

def c9_getText : String → String := fun s => s

def c7_low : Proxy := { host := "10.0.0.4", port := 1081, protocol := "http" }

def c7_high : Proxy := { host := "10.0.0.5", port := 1082, protocol := "http" }

/-- Stats for the C7 counterexample: the proxy on port 1082 has one
recorded success (score 1/2), every other proxy is untested (score 0). -/
def c7_stats : Proxy → ProxyStats :=
  fun p => if p.port = 1082 then
    { success_count := 1, fail_count := 0, avg_response_time := 0 }
  else initial_stats

def c7_verify : Proxy → Bool := fun _ => false

/-- Working list for the C7 counterexample, in registration order: the
low-score proxy was registered first. -/
def c7_working : List Proxy := [c7_low, c7_high]

def c7w_verify : Proxy → Bool := fun _ => true

def c1_proxy_a : Proxy := { host := "10.0.0.1", port := 8080, protocol := "http" }

def c1_proxy_b : Proxy :=
  { host := "10.0.0.1", port := 8080, protocol := "http", success_rate := 1 }

def c8_initial : ProxyStats := initial_stats

/-! ## Lemma library for the dict model -/

theorem dictLookup_nil {κ α : Type} [BEq κ] (k : κ) :
    dictLookup k ([] : List (κ × α)) = none := rfl

theorem dictLookup_cons {κ α : Type} [BEq κ] (k : κ) (p : κ × α) (d : List (κ × α)) :
    dictLookup k (p :: d) = if p.1 == k then some p.2 else dictLookup k d := by
  by_cases h : p.1 == k
  · simp [dictLookup, List.find?_cons_of_pos, h]
  · simp only [Bool.not_eq_true] at h
    simp [dictLookup, List.find?_cons_of_neg, h]

theorem dictLookup_replace_ne {κ α : Type} [BEq κ] [LawfulBEq κ]
    (d : List (κ × α)) (k₀ : κ) (v : α) (k : κ) (h : k ≠ k₀) :
    dictLookup k (d.map (fun p => if p.1 == k₀ then (p.1, v) else p)) = dictLookup k d := by
  induction d with
  | nil => rfl
  | cons p d ih =>
    by_cases hp : (p.1 == k₀) = true
    · have hpk : (p.1 == k) = false := by
        rw [beq_eq_false_iff_ne]
        rw [beq_iff_eq] at hp
        exact fun hc => h (hc.symm.trans hp)
      simp [dictLookup_cons, hp, hpk, ih]
    · simp only [Bool.not_eq_true] at hp
      simp [dictLookup_cons, hp, ih]

theorem dictLookup_replace_self {κ α : Type} [BEq κ] [LawfulBEq κ]
    (d : List (κ × α)) (k₀ : κ) (v : α) :
    dictLookup k₀ (d.map (fun p => if p.1 == k₀ then (p.1, v) else p)) =
      (dictLookup k₀ d).map (fun _ => v) := by
  induction d with
  | nil => rfl
  | cons p d ih =>
    by_cases hp : (p.1 == k₀) = true
    · simp [dictLookup_cons, hp, ih]
    · simp only [Bool.not_eq_true] at hp
      simp [dictLookup_cons, hp, ih]

theorem dictLookup_pyDictInsert {κ α : Type} [BEq κ] [LawfulBEq κ] [DecidableEq κ]
    (d : List (κ × α)) (kv : κ × α) (k : κ) :
    dictLookup k (pyDictInsert d kv) = if k = kv.1 then some kv.2 else dictLookup k d := by
  unfold pyDictInsert
  by_cases hany : (d.any fun p => p.1 == kv.1) = true
  · rw [if_pos hany]
    by_cases hk : k = kv.1
    · subst hk
      rw [dictLookup_replace_self d kv.1 kv.2, if_pos rfl]
      obtain ⟨p, hpmem, hpk⟩ := List.any_eq_true.mp hany
      have hne : dictLookup kv.1 d ≠ none := by
        intro hnone
        have h2 : d.find? (fun q => q.1 == kv.1) = none := by
          unfold dictLookup at hnone
          exact Option.map_eq_none'.mp hnone
        exact (List.find?_eq_none.mp h2 p hpmem) hpk
      obtain ⟨v, hv⟩ := Option.ne_none_iff_exists'.mp hne
      rw [hv, Option.map_some']
    · rw [dictLookup_replace_ne d kv.1 kv.2 k hk, if_neg hk]
  · rw [if_neg hany]
    unfold dictLookup
    rw [List.find?_append]
    by_cases hk : k = kv.1
    · subst hk
      have hfind : d.find? (fun p => p.1 == kv.1) = none := by
        rw [List.find?_eq_none]
        intro p hpmem hpk
        exact hany (List.any_eq_true.mpr ⟨p, hpmem, hpk⟩)
      have h1 : List.find? (fun p => p.1 == kv.1) [kv] = some kv :=
        List.find?_cons_of_pos _ (by simp)
      rw [hfind, h1, Option.none_or, if_pos rfl, Option.map_some']
    · have hbeq : (kv.1 == k) = false := by
        rw [beq_eq_false_iff_ne]
        exact fun hc => hk hc.symm
      have h1 : List.find? (fun p => p.1 == k) [kv] = none := by
        simp [List.find?_singleton, hbeq]
      rw [h1, Option.or_none, if_neg hk]

theorem dictLookup_foldl {κ α : Type} [BEq κ] [LawfulBEq κ] [DecidableEq κ]
    (ps : List (κ × α)) :
    ∀ (d : List (κ × α)) (k : κ),
      dictLookup k (ps.foldl pyDictInsert d) =
        ((ps.reverse.find? (fun p => p.1 == k)).map Prod.snd).or (dictLookup k d) := by
  induction ps with
  | nil =>
    intro d k
    simp
  | cons x ps ih =>
    intro d k
    rw [List.foldl_cons, ih, List.reverse_cons, List.find?_append]
    by_cases hfound : (ps.reverse.find? (fun p => p.1 == k)).isSome
    · obtain ⟨a, ha⟩ := Option.isSome_iff_exists.mp hfound
      simp [ha, Option.or]
    · have hnone : ps.reverse.find? (fun p => p.1 == k) = none :=
        Option.not_isSome_iff_eq_none.mp hfound
      rw [hnone, dictLookup_pyDictInsert]
      by_cases hk : k = x.1
      · subst hk
        have h1 : List.find? (fun p => p.1 == x.1) [x] = some x :=
          List.find?_cons_of_pos _ (by simp)
        simp [h1, Option.or]
      · have hbeq : (x.1 == k) = false := by
          rw [beq_eq_false_iff_ne]
          exact fun hc => hk hc.symm
        have h1 : List.find? (fun p => p.1 == k) [x] = none := by
          simp [List.find?_singleton, hbeq]
        simp [h1, Option.or, if_neg hk]

theorem dictLookup_pyDict {κ α : Type} [BEq κ] [LawfulBEq κ] [DecidableEq κ]
    (ps : List (κ × α)) (k : κ) :
    dictLookup k (pyDict ps) = (ps.reverse.find? (fun p => p.1 == k)).map Prod.snd := by
  rw [pyDict, dictLookup_foldl, dictLookup_nil, Option.or_none]

theorem keys_pyDictInsert {κ α : Type} [BEq κ] [LawfulBEq κ] [DecidableEq κ]
    (d : List (κ × α)) (kv : κ × α) :
    (pyDictInsert d kv).map Prod.fst =
      if kv.1 ∈ d.map Prod.fst then d.map Prod.fst else d.map Prod.fst ++ [kv.1] := by
  unfold pyDictInsert
  have hiff : (d.any (fun p => p.1 == kv.1)) = true ↔ kv.1 ∈ d.map Prod.fst := by
    rw [List.any_eq_true]
    constructor
    · rintro ⟨p, hp, hpk⟩
      exact List.mem_map.mpr ⟨p, hp, by simpa using hpk⟩
    · intro h
      obtain ⟨p, hp, hpk⟩ := List.mem_map.mp h
      exact ⟨p, hp, by simpa using hpk⟩
  by_cases hany : (d.any fun p => p.1 == kv.1) = true
  · rw [if_pos hany, if_pos (hiff.mp hany), List.map_map]
    refine List.map_congr_left (fun p _ => ?_)
    by_cases hp : (p.1 == kv.1) = true <;> simp [Function.comp, hp]
  · rw [if_neg hany, if_neg (fun h => hany (hiff.mpr h))]
    simp

theorem mem_keys_pyDictInsert {κ α : Type} [BEq κ] [LawfulBEq κ] [DecidableEq κ]
    (d : List (κ × α)) (kv : κ × α) (k : κ) :
    k ∈ (pyDictInsert d kv).map Prod.fst ↔ k ∈ d.map Prod.fst ∨ k = kv.1 := by
  rw [keys_pyDictInsert]
  by_cases hmem : kv.1 ∈ d.map Prod.fst
  · rw [if_pos hmem]
    constructor
    · exact Or.inl
    · rintro (h | h)
      · exact h
      · exact h ▸ hmem
  · rw [if_neg hmem]
    simp

theorem nodup_keys_pyDictInsert {κ α : Type} [BEq κ] [LawfulBEq κ] [DecidableEq κ]
    (d : List (κ × α)) (kv : κ × α) (h : (d.map Prod.fst).Nodup) :
    ((pyDictInsert d kv).map Prod.fst).Nodup := by
  rw [keys_pyDictInsert]
  by_cases hmem : kv.1 ∈ d.map Prod.fst
  · rwa [if_pos hmem]
  · rw [if_neg hmem]
    simp [List.nodup_append, h, hmem]

theorem nodup_keys_foldl {κ α : Type} [BEq κ] [LawfulBEq κ] [DecidableEq κ]
    (ps : List (κ × α)) :
    ∀ d : List (κ × α), (d.map Prod.fst).Nodup →
      ((ps.foldl pyDictInsert d).map Prod.fst).Nodup := by
  induction ps with
  | nil => intro d h; simpa using h
  | cons x ps ih =>
    intro d h
    exact ih (pyDictInsert d x) (nodup_keys_pyDictInsert d x h)

theorem mem_keys_foldl {κ α : Type} [BEq κ] [LawfulBEq κ] [DecidableEq κ]
    (ps : List (κ × α)) :
    ∀ (d : List (κ × α)) (k : κ),
      k ∈ (ps.foldl pyDictInsert d).map Prod.fst ↔
        k ∈ d.map Prod.fst ∨ k ∈ ps.map Prod.fst := by
  induction ps with
  | nil => intro d k; simp
  | cons x ps ih =>
    intro d k
    rw [List.foldl_cons, ih, mem_keys_pyDictInsert]
    simp only [List.map_cons, List.mem_cons]
    tauto

theorem nodup_keys_pyDict {κ α : Type} [BEq κ] [LawfulBEq κ] [DecidableEq κ]
    (ps : List (κ × α)) :
    ((pyDict ps).map Prod.fst).Nodup :=
  nodup_keys_foldl ps [] (by simp)

theorem mem_keys_pyDict {κ α : Type} [BEq κ] [LawfulBEq κ] [DecidableEq κ]
    (ps : List (κ × α)) (k : κ) :
    k ∈ (pyDict ps).map Prod.fst ↔ k ∈ ps.map Prod.fst := by
  rw [pyDict, mem_keys_foldl]
  simp

theorem dictLookup_update_self {κ α : Type} [BEq κ] [LawfulBEq κ]
    (d : List (κ × α)) (k₀ : κ) (f : α → α) :
    dictLookup k₀ (d.map (fun kv => if kv.1 == k₀ then (kv.1, f kv.2) else kv)) =
      (dictLookup k₀ d).map f := by
  induction d with
  | nil => rfl
  | cons p d ih =>
    by_cases hp : (p.1 == k₀) = true
    · simp [dictLookup_cons, hp, ih]
    · simp only [Bool.not_eq_true] at hp
      simp [dictLookup_cons, hp, ih]

theorem dictLookup_update_ne {κ α : Type} [BEq κ] [LawfulBEq κ]
    (d : List (κ × α)) (k₀ : κ) (f : α → α) (k : κ) (h : k ≠ k₀) :
    dictLookup k (d.map (fun kv => if kv.1 == k₀ then (kv.1, f kv.2) else kv)) =
      dictLookup k d := by
  induction d with
  | nil => rfl
  | cons p d ih =>
    by_cases hp : (p.1 == k₀) = true
    · have hpk : (p.1 == k) = false := by
        rw [beq_eq_false_iff_ne]
        rw [beq_iff_eq] at hp
        exact fun hc => h (hc.symm.trans hp)
      simp [dictLookup_cons, hp, hpk, ih]
    · simp only [Bool.not_eq_true] at hp
      simp [dictLookup_cons, hp, ih]

/-! ## Claims -/

/-- Serialized behaviour of the rate gate, for contrast with the
concurrent race below: when `_rate_limit` calls do not overlap, each
admission is at least `1/rate` after the previous recorded admission. -/
theorem rate_limit_serial_spacing (rate : ℚ) (hr : 0 < rate)
    (s : RateState) (now : ℚ) :
    s.last_request_time + 1 / rate ≤ (rate_limit_serial rate s now).2 := by
  unfold rate_limit_serial rate_limit_check rate_limit_commit
  by_cases h : now - s.last_request_time < 1 / rate
  · rw [if_pos h]
    simp only
    ring_nf
    linarith
  · rw [if_neg h]
    simp only
    push_neg at h
    linarith

/-- C1: the claim says two `Proxy` values are equal (and hashable) exactly
by the identity triple (host, port, protocol), independent of mutable
fields.  In models.py `Proxy` is a plain non-frozen `@dataclass`, so its
generated equality compares ALL fields: the two proxies below share the
identity triple and differ only in the mutable `success_rate`, yet
dataclass equality distinguishes them.  (Moreover a non-frozen dataclass
with `eq=True` gets `__hash__ = None`, so `ProxyManager.__init__` raises
`TypeError: unhashable type` at `self.proxy_stats[proxy] = ...` for every
registered proxy.) -/
theorem proxy_key_identity_cex :
    proxy_identity_eq c1_proxy_a c1_proxy_b = true ∧
    proxy_dataclass_eq c1_proxy_a c1_proxy_b = false := by
  decide

theorem fetch_loop_all_fail (transport : ℕ → Option String) (url : String)
    (h : ∀ i, transport i = none) :
    ∀ n a b : ℕ,
      fetch_loop transport url n a b =
        (.typeError "ScrapeResult missing required argument content",
          (List.range n).map (fun i => b * 2 ^ i)) := by
  intro n
  induction n with
  | zero => intro a b; simp [fetch_loop]
  | succ n ih =>
    intro a b
    have hmap : (List.range (n + 1)).map (fun i => b * 2 ^ i)
        = b :: (List.range n).map (fun i => b * 2 * 2 ^ i) := by
      rw [List.range_succ_eq_map, List.map_cons, List.map_map]
      simp only [pow_zero, mul_one]
      congr 1
      refine List.map_congr_left (fun i _ => ?_)
      show b * 2 ^ (i + 1) = b * 2 * 2 ^ i
      rw [pow_succ]
      ring
    rw [hmap]
    simp only [fetch_loop, h a, ih (a + 1) (b * 2)]

/-- C2: when the transport fails on every attempt, `fetch` performs
exactly `max_retries` attempts with doubling backoff sleeps 1, 2, 4, ...;
but instead of returning a ScrapeResult with error "failed after retries"
and empty content, the final `return ScrapeResult(url=url, error="Failed
after retries")` raises `TypeError`, because the dataclass field `content`
has no default.  (The spelled error string also differs: the code
capitalizes "Failed".) -/
theorem fetch_all_attempts_fail_raises (transport : ℕ → Option String)
    (url : String) (mr : ℕ) (h : ∀ i, transport i = none) :
    fetch true transport url mr =
      (.typeError "ScrapeResult missing required argument content",
        (List.range mr).map (fun i => 2 ^ i)) ∧
    (fetch true transport url mr).2.length = mr := by
  have hbody : fetch true transport url mr =
      (.typeError "ScrapeResult missing required argument content",
        (List.range mr).map (fun i => 2 ^ i)) := by
    unfold fetch
    rw [if_neg (by simp)]
    rw [fetch_loop_all_fail transport url h mr 0 1]
    simp
  exact ⟨hbody, by rw [hbody]; simp⟩

/-- Closed instance of the C2 theorem: a transport that always fails, with
`max_retries = 3`. -/
theorem fetch_all_attempts_fail_raises_witness :
    fetch true (fun _ => none) "http://example.com/x" 3 =
      (.typeError "ScrapeResult missing required argument content",
        (List.range 3).map (fun i => 2 ^ i)) ∧
    (fetch true (fun _ => none) "http://example.com/x" 3).2.length = 3 :=
  fetch_all_attempts_fail_raises (fun _ => none) "http://example.com/x" 3
    (fun _ => rfl)

/-- C3: the claim (and spec section 4.1) requires consecutive admissions
never closer than `1/rate_limit` as measured by the gate's own
`last_request_time` tracking.  `_rate_limit` is not atomic: the read of
`last_request_time` and the post-sleep write are separated by the `await
asyncio.sleep` suspension.  With `rate_limit = 1` and the gate built at
time 0, two concurrent tasks (admitted together by the semaphore, whose
default limit is 5) both run the check at time 0 against the same state,
both sleep until time 1, and both are admitted at time 1: the two
admissions are 0 seconds apart, below `1/rate_limit = 1`.  The serialized
behaviour (`rate_limit_serial_spacing` above) meets the spacing bound, so
the failure is exactly the missing mutual exclusion. -/
theorem rate_gate_concurrent_race :
    rate_limit_check 1 { last_request_time := 0 } 0 = some 1 ∧
    rate_limit_commit 1 = ({ last_request_time := 1 }, 1) ∧
    (rate_limit_commit 1).2 - (rate_limit_commit 1).2 < 1 / 1 := by
  refine ⟨?_, rfl, by norm_num⟩
  unfold rate_limit_check
  norm_num


/-- C8: the claim says every probe failure, including a non-success
response, increments `fail_count` and returns false.  A 503 response
leaves the statistics record completely unchanged: the non-200 path falls
through to `return False` with no stats update. -/
theorem verify_proxy_non200_cex :
    verify_proxy (.resp 503 2) 7 c8_initial = (false, c8_initial) ∧
    (verify_proxy (.resp 503 2) 7 c8_initial).2.fail_count ≠
      c8_initial.fail_count + 1 := by
  decide

/-- C8 amended: `verify_proxy` never throws (it is a total function on
probe outcomes: the `try` catches every exception) and returns true
exactly on a 200 response; an exception or timeout increments `fail_count`
and returns false; a non-200 response returns false WITHOUT touching the
statistics. -/
theorem verify_proxy_amended (o : ProbeOutcome) (now : ℚ) (s : ProxyStats) :
    ((verify_proxy o now s).1 = true ↔ ∃ rt, o = .resp 200 rt) ∧
    (∀ msg, o = .exc msg →
      verify_proxy o now s = (false, { s with fail_count := s.fail_count + 1 })) ∧
    (∀ status rt, o = .resp status rt → status ≠ 200 →
      verify_proxy o now s = (false, s)) := by
  refine ⟨?_, ?_, ?_⟩
  · cases o with
    | resp status rt =>
      by_cases hst : status = 200
      · subst hst
        simp [verify_proxy]
      · simp [verify_proxy, hst]
    | exc msg => simp [verify_proxy]
  · rintro msg rfl
    simp [verify_proxy]
  · rintro status rt rfl hst
    simp [verify_proxy, hst]

/-- Closed instance of the C8 amended theorem at an exception outcome and
at a 404 response. -/
theorem verify_proxy_amended_witness :
    verify_proxy (.exc "timeout") 0 initial_stats =
      (false, { initial_stats with fail_count := initial_stats.fail_count + 1 }) ∧
    verify_proxy (.resp 404 1) 0 initial_stats = (false, initial_stats) :=
  ⟨(verify_proxy_amended (.exc "timeout") 0 initial_stats).2.1 "timeout" rfl,
    (verify_proxy_amended (.resp 404 1) 0 initial_stats).2.2 404 1 rfl
      (by decide)⟩

/-- C4: the claim conditions eviction on the proxy "having recorded both a
success and the new failure".  The code evicts whenever the post-increment
ratio is below 0.5, with no success required: a freshly registered proxy
(zero successes) is removed from the working set by its very first
`mark_proxy_failed`, its `success_count` still 0. -/
theorem mark_proxy_failed_cex :
    mark_proxy_failed c4_state c4_proxy =
      .ok { working_proxies := [],
            proxy_stats := [(c4_proxy, { initial_stats with fail_count := 1 })] } ∧
    (dictLookup c4_proxy c4_state.proxy_stats).map ProxyStats.success_count =
      some 0 := by
  constructor
  · have hlook : dictLookup c4_proxy c4_state.proxy_stats = some initial_stats := by
      decide
    have hmem : c4_proxy ∈ c4_state.working_proxies := by decide
    have hrate : (initial_stats.success_count : ℚ) /
        ((initial_stats.success_count : ℚ) + ((initial_stats.fail_count : ℚ) + 1)) < 1 / 2 := by
      norm_num [initial_stats]
    simp only [mark_proxy_failed, hlook]
    rw [if_pos hrate, if_pos hmem]
    simp only [Except.ok.injEq]
    decide
  · decide

/-- C4 amended: for a registered proxy currently in the working set (held
at most once, as registration does), `mark_proxy_failed` increments its
`fail_count` and afterwards the proxy is absent from the working set
exactly when the resulting `success/(success+fail)` ratio is below 0.5 —
whether or not any success was ever recorded (a fresh proxy is evicted on
its first failure).  The eviction is permanent in the sense that the call
never adds proxies to the working set and `mark_proxy_success` never
re-admits. -/
theorem mark_proxy_failed_amended (st : ProxyManagerState) (p : Proxy)
    (s : ProxyStats)
    (hs : dictLookup p st.proxy_stats = some s)
    (hw : p ∈ st.working_proxies)
    (hcount : st.working_proxies.count p ≤ 1) :
    ∃ st', mark_proxy_failed st p = .ok st' ∧
      (p ∉ st'.working_proxies ↔
        (s.success_count : ℚ) /
          ((s.success_count : ℚ) + ((s.fail_count : ℚ) + 1)) < 1 / 2) ∧
      dictLookup p st'.proxy_stats = some { s with fail_count := s.fail_count + 1 } ∧
      st'.working_proxies ⊆ st.working_proxies ∧
      (∀ q st'', mark_proxy_success st' q = .ok st'' →
        st''.working_proxies = st'.working_proxies) := by
  have hupd : dictLookup p (st.proxy_stats.map
      (fun kv => if kv.1 == p then (kv.1, bump_fail kv.2) else kv)) =
      some { s with fail_count := s.fail_count + 1 } := by
    rw [dictLookup_update_self, hs, Option.map_some']
    rfl
  have hsucc : ∀ (t : ProxyManagerState) (q : Proxy) (st'' : ProxyManagerState),
      mark_proxy_success t q = .ok st'' →
      st''.working_proxies = t.working_proxies := by
    intro t q st'' h
    unfold mark_proxy_success at h
    cases hq : dictLookup q t.proxy_stats with
    | none => rw [hq] at h; exact absurd h (by simp)
    | some u =>
      rw [hq] at h
      simp only [Except.ok.injEq] at h
      rw [← h]
  simp only [mark_proxy_failed, hs]
  by_cases hrate : (s.success_count : ℚ) /
      ((s.success_count : ℚ) + ((s.fail_count : ℚ) + 1)) < 1 / 2
  · rw [if_pos hrate, if_pos hw]
    refine ⟨_, rfl, ?_, hupd, List.erase_subset p st.working_proxies,
      fun q st'' h => hsucc _ q st'' h⟩
    have hnot : p ∉ st.working_proxies.erase p := by
      have h1 : st.working_proxies.count p = 1 :=
        le_antisymm hcount (List.count_pos_iff.mpr hw)
      have h2 : (st.working_proxies.erase p).count p = 0 := by
        rw [List.count_erase_self, h1]
      exact List.count_eq_zero.mp h2
    exact iff_of_true hnot hrate
  · rw [if_neg hrate]
    refine ⟨_, rfl, ?_, hupd, fun x hx => hx,
      fun q st'' h => hsucc _ q st'' h⟩
    exact iff_of_false (fun hnot => hnot hw) hrate

/-- Closed instance of the C4 amended theorem: a working proxy with one
recorded success takes its first failure; the ratio 1/2 is not below 1/2,
so it stays in the working set with its fail count incremented. -/
theorem mark_proxy_failed_amended_witness :
    ∃ st', mark_proxy_failed c4w_state c4w_proxy = .ok st' ∧
      (c4w_proxy ∉ st'.working_proxies ↔
        (c4w_stats.success_count : ℚ) /
          ((c4w_stats.success_count : ℚ) + ((c4w_stats.fail_count : ℚ) + 1)) < 1 / 2) ∧
      dictLookup c4w_proxy st'.proxy_stats =
        some { c4w_stats with fail_count := c4w_stats.fail_count + 1 } ∧
      st'.working_proxies ⊆ c4w_state.working_proxies ∧
      (∀ q st'', mark_proxy_success st' q = .ok st'' →
        st''.working_proxies = st'.working_proxies) :=
  mark_proxy_failed_amended c4w_state c4w_proxy c4w_stats (by decide) (by decide)
    (by decide)

/-- Value returned by `multi_search` for a key: `asyncio.gather` returns
results positionally and `dict(zip(...))` lets later positions overwrite
earlier ones, so the value at `q` is the result of the call made for the
LAST occurrence of `q` in the query list, independent of the completion
schedule. -/
theorem multi_search_lookup (provider : ℕ → String → Except String (List SearchResult))
    (fo : List ℕ) (qs : List String) (q : String) :
    dictLookup q (multi_search provider fo qs) =
      (qs.enum.reverse.find? (fun iq => iq.2 == q)).map
        (fun iq => search (provider iq.1) iq.2) := by
  unfold multi_search
  rw [dictLookup_pyDict, ← List.map_reverse, List.find?_map, Option.map_map]
  rfl

/-- Keys of the `multi_search` result map are the query list itself with
later duplicates dropped. -/
theorem multi_search_keys_eq (provider : ℕ → String → Except String (List SearchResult))
    (fo : List ℕ) (qs : List String) :
    ((qs.enum.map (fun iq => (iq.2, search (provider iq.1) iq.2))).map Prod.fst) = qs := by
  rw [List.map_map]
  exact List.enum_map_snd qs

/-- C5: the claim says the value stored under a duplicated query is the
result of whichever duplicate call finished LAST.  `asyncio.gather` orders
its output by task position, not completion, and `dict(zip(queries,
results))` therefore lets the last positional occurrence win.  Here the
completion schedule [1, 0] finishes call 1 first and call 0 last, so the
claim predicts r0, yet the map holds r1 (call 1 being the last occurrence
in the list). -/
theorem multi_search_last_to_finish_cex :
    dictLookup "a" (multi_search c5_provider [1, 0] ["a", "a"]) =
      some [c5_result_b] ∧
    [1, 0].getLast? = some 0 ∧
    search (c5_provider 0) "a" = [c5_result_a] ∧
    [c5_result_b] ≠ [c5_result_a] := by
  refine ⟨by decide, by decide, by decide, by decide⟩

/-- C5 amended: `multi_search` keeps every input query as a key exactly
once (even under duplicates), and the value stored under a query is the
result of the call made for its LAST occurrence in the input list — the
positional order of `dict(zip(queries, gather-results))`, not the
completion order, decides who wins. -/
theorem multi_search_amended (provider : ℕ → String → Except String (List SearchResult))
    (fo : List ℕ) (qs : List String) (q : String) :
    (List.count q ((multi_search provider fo qs).map Prod.fst) =
      if q ∈ qs then 1 else 0) ∧
    dictLookup q (multi_search provider fo qs) =
      (qs.enum.reverse.find? (fun iq => iq.2 == q)).map
        (fun iq => search (provider iq.1) iq.2) := by
  refine ⟨?_, multi_search_lookup provider fo qs q⟩
  unfold multi_search
  by_cases hq : q ∈ qs
  · rw [if_pos hq]
    refine List.count_eq_one_of_mem (nodup_keys_pyDict _) ?_
    rw [mem_keys_pyDict, multi_search_keys_eq provider fo qs]
    exact hq
  · rw [if_neg hq, List.count_eq_zero]
    rw [mem_keys_pyDict, multi_search_keys_eq provider fo qs]
    exact hq

/-- C6: a provider-reported error inside `search` yields an empty result
list rather than a propagated exception, and in `multi_search` the value
returned for a sibling query `q'` depends only on the provider's behaviour
at `q'`: a failure at `q` (here `p₁ i q` raising) cannot change it, for
any batch and any completion schedules. -/
theorem search_batch_isolation
    (p₁ p₂ : ℕ → String → Except String (List SearchResult))
    (fo₁ fo₂ : List ℕ) (qs : List String) (q q' : String) (i : ℕ) (e : String)
    (herr : p₁ i q = .error e)
    (hagree : ∀ j : ℕ, p₁ j q' = p₂ j q') :
    search (p₁ i) q = [] ∧
    dictLookup q' (multi_search p₁ fo₁ qs) =
      dictLookup q' (multi_search p₂ fo₂ qs) := by
  constructor
  · unfold search
    rw [herr]
  · rw [multi_search_lookup, multi_search_lookup]
    cases hf : qs.enum.reverse.find? (fun iq => iq.2 == q') with
    | none => rfl
    | some iq =>
      have hq' : iq.2 = q' := by
        have := List.find?_some hf
        simpa using this
      simp only [Option.map_some']
      rw [hq']
      unfold search
      rw [hagree iq.1]

/-- Closed instance of the C6 theorem, the batch ["a", "b"] of the spec:
the provider raises on "a" and succeeds on "b"; the "a" search returns []
and the entry for "b" agrees with the run where "a" succeeds too. -/
theorem search_batch_isolation_witness :
    search (c6_provider_fail 0) "a" = [] ∧
    dictLookup "b" (multi_search c6_provider_fail [0, 1] ["a", "b"]) =
      dictLookup "b" (multi_search c6_provider_ok [0, 1] ["a", "b"]) :=
  search_batch_isolation c6_provider_fail c6_provider_ok [0, 1] [0, 1]
    ["a", "b"] "a" "b" 0 "boom" rfl (fun _ => rfl)

/-- C9: after a `get_page_content` call that actually invoked the
transport and got a 200 response at time t0, a call for the same URL
within the TTL returns exactly the stored content without invoking the
transport (whatever the transport would do), and a call at or past the
TTL boundary (`now - stored_at >= ttl`, the entry treated as absent)
invokes the transport again. -/
theorem get_page_content_cache (getText : String → String) (html : String)
    (st : WebScraperState) (t0 t1 t2 : ℤ) (url : String) (uc : Bool)
    (o1 o2 : FetchOutcome)
    (hfetched : (get_page_content getText (.resp 200 html) st t0 url uc).2.2 = true)
    (hfresh : t1 - t0 < st.cache_ttl)
    (hexp : st.cache_ttl ≤ t2 - t0) :
    get_page_content getText o1
        ((get_page_content getText (.resp 200 html) st t0 url uc).2.1) t1 url true =
      (.ok (getText html),
        (get_page_content getText (.resp 200 html) st t0 url uc).2.1, false) ∧
    (get_page_content getText o2
        ((get_page_content getText (.resp 200 html) st t0 url uc).2.1) t2 url
        true).2.2 = true := by
  have h1 : get_page_content getText (.resp 200 html) st t0 url uc =
      (.ok (getText html),
        { st with cache := pyDictInsert st.cache (url, getText html, t0) },
        true) := by
    unfold get_page_content at hfetched ⊢
    revert hfetched
    split
    · split
      · intro hfetched
        simp at hfetched
      · intro _
        simp [fetch_branch]
    · intro _
      simp [fetch_branch]
  rw [h1]
  have hlook : dictLookup url (pyDictInsert st.cache (url, getText html, t0)) =
      some (getText html, t0) := by
    rw [dictLookup_pyDictInsert]
    simp
  constructor
  · unfold get_page_content
    simp only [if_true, hlook]
    rw [if_pos]
    exact hfresh
  · unfold get_page_content
    simp only [if_true, hlook]
    rw [if_neg (not_lt.mpr hexp)]
    cases o2 with
    | resp status h2 =>
      by_cases hs : status = 200 <;> simp [fetch_branch, hs]
    | exc m => simp [fetch_branch]

/-- Closed instance of the C9 theorem: empty cache, TTL 10; fetch at time
0, cached read at time 5, expired read at time 12. -/
theorem get_page_content_cache_witness :
    get_page_content c9_getText (.exc "down")
        ((get_page_content c9_getText (.resp 200 "hello") c9_state 0 "u" true).2.1)
        5 "u" true =
      (.ok (c9_getText "hello"),
        (get_page_content c9_getText (.resp 200 "hello") c9_state 0 "u" true).2.1,
        false) ∧
    (get_page_content c9_getText (.exc "down")
        ((get_page_content c9_getText (.resp 200 "hello") c9_state 0 "u" true).2.1)
        12 "u" true).2.2 = true :=
  get_page_content_cache c9_getText "hello" c9_state 0 5 12 "u" true
    (.exc "down") (.exc "down") (by decide) (by decide) (by decide)

/-- C10: when the single GET inside `get_page_content` fails (non-200
status or transport exception), the content cache is left exactly as it
was — no entry added, removed or overwritten — and whenever the transport
was actually invoked the call raises (returns an error) rather than
producing content. -/
theorem get_page_content_error_path (getText : String → String)
    (o : FetchOutcome) (st : WebScraperState) (now : ℤ) (url : String)
    (uc : Bool) (hfail : fetch_fails o = true) :
    (get_page_content getText o st now url uc).2.1.cache = st.cache ∧
    ((get_page_content getText o st now url uc).2.2 = true →
      ∃ e, (get_page_content getText o st now url uc).1 = .error e) := by
  have hbr : (fetch_branch getText o st now url).2.1.cache = st.cache ∧
      ∃ e, (fetch_branch getText o st now url).1 = .error e := by
    cases o with
    | resp status h2 =>
      have hs : status ≠ 200 := by
        simpa [fetch_fails, bne_iff_ne] using hfail
      simp [fetch_branch, hs]
    | exc m => simp [fetch_branch]
  unfold get_page_content
  split
  · split
    · exact ⟨rfl, fun h => absurd h (by simp)⟩
    · exact ⟨hbr.1, fun _ => hbr.2⟩
  · exact ⟨hbr.1, fun _ => hbr.2⟩

/-- Closed instance of the C10 theorem at a 404 response on an empty
cache. -/
theorem get_page_content_error_path_witness :
    (get_page_content c9_getText (.resp 404 "x") c9_state 3 "u" true).2.1.cache =
      c9_state.cache ∧
    ((get_page_content c9_getText (.resp 404 "x") c9_state 3 "u" true).2.2 = true →
      ∃ e, (get_page_content c9_getText (.resp 404 "x") c9_state 3 "u" true).1 =
        .error e) :=
  get_page_content_error_path c9_getText (.resp 404 "x") c9_state 3 "u" true
    (by decide)

theorem lexLe_trans {a b c : ℚ × ℚ} (h1 : lexLe a b = true)
    (h2 : lexLe b c = true) : lexLe a c = true := by
  simp only [lexLe, Bool.or_eq_true, Bool.and_eq_true, decide_eq_true_eq] at *
  rcases h1 with h1 | ⟨h1, h1'⟩ <;> rcases h2 with h2 | ⟨h2, h2'⟩
  · exact Or.inl (h1.trans h2)
  · exact Or.inl (h2 ▸ h1)
  · exact Or.inl (h1 ▸ h2)
  · exact Or.inr ⟨h1.trans h2, h1'.trans h2'⟩

theorem lexLe_total (a b : ℚ × ℚ) : lexLe a b = true ∨ lexLe b a = true := by
  simp only [lexLe, Bool.or_eq_true, Bool.and_eq_true, decide_eq_true_eq]
  rcases lt_trichotomy a.1 b.1 with h | h | h
  · exact Or.inl (Or.inl h)
  · rcases le_total a.2 b.2 with h2 | h2
    · exact Or.inl (Or.inr ⟨h, h2⟩)
    · exact Or.inr (Or.inr ⟨h.symm, h2⟩)
  · exact Or.inr (Or.inl h)

theorem probeFirst_take (verify : Proxy → Bool) (l : List Proxy) :
    ∃ k ≤ l.length, (probeFirst verify l).2 = l.take k := by
  induction l with
  | nil => exact ⟨0, le_refl 0, rfl⟩
  | cons p rest ih =>
    by_cases hv : verify p = true
    · exact ⟨1, by simp, by simp [probeFirst, hv]⟩
    · obtain ⟨k, hk, hpr⟩ := ih
      refine ⟨k + 1, by simpa using hk, ?_⟩
      simp only [Bool.not_eq_true] at hv
      simp [probeFirst, hv, hpr]

theorem probeFirst_none_probes (verify : Proxy → Bool) (l : List Proxy)
    (h : (probeFirst verify l).1 = none) : (probeFirst verify l).2 = l := by
  induction l with
  | nil => rfl
  | cons p rest ih =>
    by_cases hv : verify p = true
    · simp [probeFirst, hv] at h
    · simp only [Bool.not_eq_true] at hv
      simp only [probeFirst, hv, Bool.false_eq_true, if_false] at h ⊢
      simp only [List.cons.injEq, true_and]
      exact ih h

theorem probeFirst_none_iff (verify : Proxy → Bool) (l : List Proxy) :
    (probeFirst verify l).1 = none ↔ ∀ p ∈ l, verify p = false := by
  induction l with
  | nil => simp [probeFirst]
  | cons p rest ih =>
    by_cases hv : verify p = true
    · simp [probeFirst, hv]
    · simp only [Bool.not_eq_true] at hv
      simp [probeFirst, hv, ih]

theorem probeFirst_some_mem (verify : Proxy → Bool) (l : List Proxy)
    (p : Proxy) (h : (probeFirst verify l).1 = some p) :
    verify p = true ∧ p ∈ l := by
  induction l with
  | nil => simp [probeFirst] at h
  | cons q rest ih =>
    by_cases hv : verify q = true
    · simp only [probeFirst, hv, if_true] at h
      simp only [Option.some.injEq] at h
      subst h
      exact ⟨hv, List.mem_cons_self q rest⟩
    · simp only [Bool.not_eq_true] at hv
      simp only [probeFirst, hv, Bool.false_eq_true, if_false] at h
      obtain ⟨h1, h2⟩ := ih h
      exact ⟨h1, List.mem_cons_of_mem q h2⟩

theorem probeFirst_fst_find? (verify : Proxy → Bool) (l : List Proxy) :
    (probeFirst verify l).1 = l.find? verify := by
  induction l with
  | nil => rfl
  | cons p rest ih =>
    by_cases hv : verify p = true
    · simp [probeFirst, hv, List.find?_cons_of_pos _ hv]
    · simp only [Bool.not_eq_true] at hv
      have hfind : List.find? verify (p :: rest) = List.find? verify rest :=
        List.find?_cons_of_neg _ (by simp [hv])
      simp [probeFirst, hv, hfind, ih]

theorem head?_filter_find? (verify : Proxy → Bool) (l : List Proxy) :
    (l.filter verify).head? = l.find? verify := by
  induction l with
  | nil => rfl
  | cons p rest ih =>
    by_cases hv : verify p = true
    · simp [List.filter_cons, hv, List.find?_cons_of_pos _ hv]
    · simp only [Bool.not_eq_true] at hv
      have hfind : List.find? verify (p :: rest) = List.find? verify rest :=
        List.find?_cons_of_neg _ (by simp [hv])
      simp [List.filter_cons, hv, hfind, ih]

/-- C7: the claim says `get_proxy` probes candidates in strictly
descending score order.  That holds only for the top-3 loop: when all
three fail, the fallback re-verifies EVERY working proxy in stored
(registration) order, so the probe sequence revisits candidates and even
ascends in score.  Here the working list is [low, high] in registration
order with score(high) = 1/2 > 0 = score(low); all probes fail, and the
probe sequence is high, low, low, high — the final step ascends, so the
sequence is not descending (a fortiori not strictly descending). -/
theorem get_proxy_probe_order_cex :
    (get_proxy c7_verify c7_stats c7_working).2.1 =
      [c7_high, c7_low, c7_low, c7_high] ∧
    lexLe (score c7_stats c7_high) (score c7_stats c7_low) = false ∧
    ¬ List.Chain' (scoreDesc c7_stats)
      ((get_proxy c7_verify c7_stats c7_working).2.1) := by
  have hhs : score c7_stats c7_high = (1/2, 0) := by
    norm_num [score, c7_stats, c7_high]
  have hls : score c7_stats c7_low = (0, 0) := by
    norm_num [score, c7_stats, c7_low, initial_stats]
  have hlex : lexLe (score c7_stats c7_high) (score c7_stats c7_low) = false := by
    rw [hhs, hls]
    norm_num [lexLe]
  have hcond : ¬ scoreDesc c7_stats c7_low c7_high := by
    unfold scoreDesc
    rw [hlex]
    simp
  have hsort : List.insertionSort (scoreDesc c7_stats) c7_working =
      [c7_high, c7_low] := by
    simp [c7_working, List.insertionSort, List.orderedInsert, hcond]
  have hprobes : (get_proxy c7_verify c7_stats c7_working).2.1 =
      [c7_high, c7_low, c7_low, c7_high] := by
    simp only [get_proxy]
    rw [if_neg (show ¬ (c7_working = []) from by decide)]
    rw [hsort]
    simp [probeFirst, c7_verify, c7_working]
  refine ⟨hprobes, hlex, ?_⟩
  rw [hprobes]
  intro hch
  simp only [List.chain'_cons, List.chain'_singleton, and_true] at hch
  exact hcond hch.2.2

/-- C7 amended: for a non-empty working set, `get_proxy` returns none
exactly when every working proxy fails verification; the ranked candidate
list is (non-strictly) descending in score; the probe sequence is a
prefix of the descending top-3 (stopping at the first success) or — when
all of the top 3 fail — the whole top-3 followed by every working proxy
re-probed in stored order, not in score order; and a returned proxy is
the FIRST of the ranked top 3 that verifies (`List.find?` returns the
first satisfying element), or — when no top-3 candidate verifies — the
first proxy of the stored working list that verifies. -/
theorem get_proxy_amended (verify : Proxy → Bool) (stats : Proxy → ProxyStats)
    (working : List Proxy) (hne : working ≠ []) :
    ((get_proxy verify stats working).1 = none ↔
      ∀ p ∈ working, verify p = false) ∧
    List.Pairwise (scoreDesc stats)
      (List.insertionSort (scoreDesc stats) working) ∧
    ((∃ k ≤ 3, (get_proxy verify stats working).2.1 =
        ((List.insertionSort (scoreDesc stats) working).take 3).take k) ∨
      (get_proxy verify stats working).2.1 =
        (List.insertionSort (scoreDesc stats) working).take 3 ++ working) ∧
    (∀ p, (get_proxy verify stats working).1 = some p →
      (((List.insertionSort (scoreDesc stats) working).take 3).find? verify =
          some p ∨
        (((List.insertionSort (scoreDesc stats) working).take 3).find? verify =
            none ∧
          working.find? verify = some p))) := by
  haveI htot : IsTotal Proxy (scoreDesc stats) := ⟨by
    intro a b
    unfold scoreDesc
    rcases lexLe_total (score stats b) (score stats a) with h | h
    · exact Or.inl h
    · exact Or.inr h⟩
  haveI htrans : IsTrans Proxy (scoreDesc stats) := ⟨by
    intro a b c h1 h2
    unfold scoreDesc at *
    exact lexLe_trans h2 h1⟩
  refine ⟨?_, List.sorted_insertionSort (scoreDesc stats) working, ?_, ?_⟩
  · simp only [get_proxy]
    rw [if_neg hne]
    split
    · rename_i p heq
      simp only
      constructor
      · intro h
        exact absurd h (by simp)
      · intro hall
        obtain ⟨hv, hmem⟩ := probeFirst_some_mem _ _ _ heq
        have hw : p ∈ working :=
          (List.perm_insertionSort (scoreDesc stats) working).subset
            (List.take_subset 3 _ hmem)
        rw [hall p hw] at hv
        cases hv
    · rename_i heq
      simp only
      rw [List.head?_eq_none_iff, List.filter_eq_nil_iff]
      constructor
      · intro h p hp
        have := h p hp
        simpa using this
      · intro h p hp
        simp [h p hp]
  · simp only [get_proxy]
    rw [if_neg hne]
    split
    · rename_i p heq
      obtain ⟨k, hk, hpr⟩ :=
        probeFirst_take verify ((List.insertionSort (scoreDesc stats) working).take 3)
      refine Or.inl ⟨k, ?_, ?_⟩
      · calc k ≤ ((List.insertionSort (scoreDesc stats) working).take 3).length := hk
          _ ≤ 3 := by
            rw [List.length_take]
            exact min_le_left 3 _
      · simpa using hpr
    · rename_i heq
      have hpr := probeFirst_none_probes _ _ heq
      right
      simp only
      rw [hpr]
  · intro p hp
    simp only [get_proxy] at hp
    rw [if_neg hne] at hp
    split at hp
    · rename_i q heq
      simp only [Option.some.injEq] at hp
      subst hp
      left
      rw [← probeFirst_fst_find?]
      exact heq
    · rename_i heq
      right
      constructor
      · rw [← probeFirst_fst_find?]
        exact heq
      · rw [← head?_filter_find?]
        simpa using hp

/-- Closed instance of the C7 amended theorem on a singleton working set
whose proxy verifies. -/
theorem get_proxy_amended_witness :
    ((get_proxy c7w_verify c7_stats [c7_low]).1 = none ↔
      ∀ p ∈ [c7_low], c7w_verify p = false) ∧
    List.Pairwise (scoreDesc c7_stats)
      (List.insertionSort (scoreDesc c7_stats) [c7_low]) ∧
    ((∃ k ≤ 3, (get_proxy c7w_verify c7_stats [c7_low]).2.1 =
        ((List.insertionSort (scoreDesc c7_stats) [c7_low]).take 3).take k) ∨
      (get_proxy c7w_verify c7_stats [c7_low]).2.1 =
        (List.insertionSort (scoreDesc c7_stats) [c7_low]).take 3 ++ [c7_low]) ∧
    (∀ p, (get_proxy c7w_verify c7_stats [c7_low]).1 = some p →
      (((List.insertionSort (scoreDesc c7_stats) [c7_low]).take 3).find? c7w_verify =
          some p ∨
        (((List.insertionSort (scoreDesc c7_stats) [c7_low]).take 3).find? c7w_verify =
            none ∧
          [c7_low].find? c7w_verify = some p))) :=
  get_proxy_amended c7w_verify c7_stats [c7_low] (by decide)

end FastWebSearch
